import Mathlib

/-!
# Verification of the Buyer-Seller order-execution core

A shallow embedding, in Lean 4, of the order-execution and fill-tracking
core of the Buyer-Seller repository (`src/data/stock_buyer.py`,
`src/data/risk_modifier.py`, `src/data/trades_modifier.py`), together
with proofs settling the specification claims about it.

Modelling conventions:
* Python floats carrying share counts, prices and risk amounts are
  embedded as `ℚ` (the code only adds, subtracts, multiplies, divides
  and floors them, and compares against the literal `0.001`).
* The JSON files are embedded as their parsed contents: the trade queue
  as a `List Trade`, the risk ledger as an optional rational (the
  `available_risk` key may be absent from the JSON object), and file
  absence/corruption as explicit constructors where a claim needs them.
* The asynchronous brokerage callback channel is embedded as a script:
  a list of per-iteration outcomes of `event.wait(timeout=5)` inside
  `_wait_for_order_fill`, each silence advancing the monitor's clock by
  the 5-second polling slice exactly as the code's accounting does.
* Fallible Python code returns `Except`; an uncaught Python exception is
  an `Except.error` carrying the state at the moment of the raise (file
  writes performed before the raise persist, as they do in the code).
-/

/-! ## Data model (`stock_buyer.py` dataclasses, `trades.json` shape) -/

/-- `SellStopOrder` dataclass of `stock_buyer.py`: one stop-loss leg. -/
structure SellStopOrder where
  price : ℚ
  shares : ℚ
deriving DecidableEq, Inhabited

/-- `Trade` dataclass of `stock_buyer.py` / one entry of `trades.json`. -/
structure Trade where
  ticker : String
  shares : ℚ
  risk_amount : ℚ
  lower_price_range : ℚ
  higher_price_range : ℚ
  sell_stops : List SellStopOrder
deriving DecidableEq, Inhabited

/-- Sum of the sell-stop share counts of a stop list
(`sum(stop.shares for stop in trade.sell_stops)`). -/
def totalStopShares (stops : List SellStopOrder) : ℚ :=
  (stops.map (fun s => s.shares)).sum

/-! ## Risk ledger backing store (`risk_amount.json`)

The file on disk is `absent`, `corrupt` (unparseable JSON), or `valid`
JSON whose `available_risk` key may be missing (`data.get` defaults
apply). -/

/-- State of the `risk_amount.json` backing store. -/
inductive RiskFileState where
  | absent : RiskFileState
  | corrupt : RiskFileState
  | valid : Option ℚ → RiskFileState
deriving DecidableEq, Inhabited

/-- `StockBuyer._initialize_files`, risk-file half: if the risk file does
not exist it is created with `{"available_risk": 10000.0}`; otherwise it
is left untouched. -/
def sb_initialize_risk_file : RiskFileState → RiskFileState
  | RiskFileState.absent => RiskFileState.valid (some 10000)
  | s => s

/-- `RiskModifier._initialize_file`: if the risk file does not exist it is
created with `{"available_risk": 0.0}`; otherwise it is left untouched. -/
def rm_initialize_file : RiskFileState → RiskFileState
  | RiskFileState.absent => RiskFileState.valid (some 0)
  | s => s

/-- `StockBuyer._read_risk_amount`: `json.load` then
`data.get('available_risk', 0.0)`, with `JSONDecodeError` and
`FileNotFoundError` both caught and converted to `0.0`. -/
def sb_read_risk_amount : RiskFileState → ℚ
  | RiskFileState.valid (some v) => v
  | RiskFileState.valid none => 0
  | RiskFileState.absent => 0
  | RiskFileState.corrupt => 0

/-- `RiskModifier.get_current_risk`: same read-with-silent-default shape
as `StockBuyer._read_risk_amount` (the `FileLocker` open of an absent
file raises `FileNotFoundError`, which the `except` clause converts to
`0.0`; corrupt JSON raises `JSONDecodeError`, likewise converted). -/
def rm_get_current_risk : RiskFileState → ℚ
  | RiskFileState.valid (some v) => v
  | RiskFileState.valid none => 0
  | RiskFileState.absent => 0
  | RiskFileState.corrupt => 0

/-- `RiskModifier.subtract_risk_amount` acting on a valid risk file whose
`available_risk` key holds `data`: reads `old = data.get('available_risk', 0.0)`,
computes `new = old - amount`, refuses (returns `False`, file unchanged)
when `new < 0`, and otherwise stores `new` and returns `True`. -/
def subtract_risk_amount (data : Option ℚ) (amount_to_subtract : ℚ) :
    Bool × Option ℚ :=
  let old_amount := data.getD 0
  let new_amount := old_amount - amount_to_subtract
  if new_amount < 0 then
    (false, data)
  else
    (true, some new_amount)

/-! ## Claim C4 -/

/-- Counterexample to claim C4: the claim says an absent backing store is
initialized to a zero-risk default, but `StockBuyer._initialize_files`
initializes the absent risk file to `available_risk = 10000.0`, which a
subsequent read returns; `10000 ≠ 0`. -/
theorem C4_counterexample :
    sb_read_risk_amount (sb_initialize_risk_file RiskFileState.absent) = 10000 ∧
    sb_read_risk_amount (sb_initialize_risk_file RiskFileState.absent) ≠ 0 := by
  constructor
  · rfl
  · intro h
    simp [sb_initialize_risk_file, sb_read_risk_amount] at h

/-- Claim C4, amended: when the risk-ledger backing store is absent, the
manual-adjustment tool (`RiskModifier._initialize_file`) initializes it
to a zero-risk default, but the executor (`StockBuyer._initialize_files`)
initializes it to `available_risk = 10000.0`; when the store is corrupt
(or its key missing), every read — `StockBuyer._read_risk_amount` and
`RiskModifier.get_current_risk` — treats the value as zero without
surfacing an error. -/
theorem C4_amended :
    rm_initialize_file RiskFileState.absent = RiskFileState.valid (some 0) ∧
    sb_initialize_risk_file RiskFileState.absent = RiskFileState.valid (some 10000) ∧
    sb_read_risk_amount RiskFileState.corrupt = 0 ∧
    rm_get_current_risk RiskFileState.corrupt = 0 ∧
    sb_read_risk_amount (RiskFileState.valid none) = 0 ∧
    rm_get_current_risk (RiskFileState.valid none) = 0 := by
  refine ⟨rfl, rfl, rfl, rfl, rfl, rfl⟩

/-! ## Claim C10 -/

/-- Claim C10: for every stored ledger value `a` and every subtraction
amount `s`, `RiskModifier.subtract_risk_amount` fails (returns `false`)
and leaves the stored value unchanged exactly when `a - s < 0`; when
`a - s ≥ 0` — including when the result is exactly zero — it succeeds and
stores `a - s`. -/
theorem C10_subtract_risk_amount (a s : ℚ) :
    subtract_risk_amount (some a) s =
      if a - s < 0 then (false, some a) else (true, some (a - s)) := by
  unfold subtract_risk_amount
  simp only [Option.getD_some]

/-! ## Fill Monitor (`StockBuyer._wait_for_order_fill`)

The asynchronous callback channel is embedded as a script of
per-iteration outcomes of `self.ib_wrapper.order_events[order_id].wait(timeout=5)`:
`silence` means the wait timed out after its 5-second slice, `event dt r`
means the wait returned `True` after `dt` seconds with the current
`order_fills` entry being `r` (`none` models an event set by the `error`
callback, which signals the event without writing `order_fills`, so the
subsequent dict read yields the `.get` defaults).

The `threading.Event` flag is part of the loop's state and is threaded
through the model: it is set by a `Filled`/`Cancelled` `orderStatus`
callback or by an `error` callback, and cleared only by the fall-through
`event.clear()` (line 299). The partial-fill branch exits via `continue`
or the stall `break` without clearing, so after a stall break the flag
is still set and the post-cancel `wait(timeout=10)` (line 314) returns
`True` immediately, with no new callback needed. `wait_loop_realizable`
states which scripts are consistent with these flag semantics (a wait
cannot time out while the flag is set, and a wait against a set flag
returns instantly). -/

/-- One `order_fills[orderId]` record as written by `IBWrapper.orderStatus`. -/
structure OrderRec where
  status : String
  filled : ℚ
  remaining : ℚ
  avgFillPrice : ℚ
deriving DecidableEq, Inhabited

/-- `order_status.get('status', 'Unknown')`. -/
def recStatus : Option OrderRec → String
  | some r => r.status
  | none => "Unknown"

/-- `order_status.get('filled', 0)`. -/
def recFilled : Option OrderRec → ℚ
  | some r => r.filled
  | none => 0

/-- `order_status.get('remaining', d)` where `d` is the call site's default. -/
def recRemaining (r : Option OrderRec) (d : ℚ) : ℚ :=
  match r with
  | some x => x.remaining
  | none => d

/-- `order_status.get('avgFillPrice', 0)`. -/
def recAvg : Option OrderRec → ℚ
  | some r => r.avgFillPrice
  | none => 0

/-- One iteration's outcome of the 5-second event wait inside the
`_wait_for_order_fill` loop. -/
inductive Slice where
  | silence : Slice
  | event (dt : ℕ) (r : Option OrderRec) : Slice
deriving DecidableEq, Inhabited

/-- The dict returned by `_wait_for_order_fill`. -/
structure FillOutcome where
  success : Bool
  filled_shares : ℚ
  remaining_shares : ℚ
  avg_price : ℚ
  status : String
  cancelled : Bool
deriving DecidableEq, Inhabited

/-- Exit of the main wait loop: an early `return` with an outcome, or
falling through (stall `break` or total-timeout expiry) to the
cancellation code after the loop, carrying whether the order-event flag
is still set at that point (it is on every stall break, since the
partial-fill branch never clears it). -/
inductive LoopRes where
  | done : FillOutcome → LoopRes
  | toCancel (flagSet : Bool) : LoopRes
deriving DecidableEq, Inhabited

/-- Environment for the post-loop cancellation code: whether
`self.ib_client.cancelOrder` raises, whether a flag-setting callback
arrives during the 10-second confirmation wait (only consulted when the
flag is not already set at loop exit), and the `order_fills` contents
read at the confirmation point and at the final fallback read. -/
structure CancelEnv where
  cancelRaises : Bool
  confirmEvent : Bool
  confirmRec : Option OrderRec
  finalRec : Option OrderRec
deriving DecidableEq, Inhabited

/-- The `while time.time() - start_time < timeout` loop of
`_wait_for_order_fill`, lines 244-303. State: the remaining script, the
elapsed seconds, `last_filled`, `no_progress_time`, and the order-event
flag. A timed-out wait advances the clock by its full 5-second slice;
an event advances it by `dt`. When an event iteration runs, the flag is
set at the branch point; the partial-fill branch (`continue` and the
stall `break`) leaves it set, the fall-through `event.clear()` clears
it, and silence leaves it untouched. Every fall-through exit reports
the flag state. An exhausted script stands for no further observations
(with the flag clear that is unbroken silence running the clock down to
the total timeout; `wait_loop_realizable` rejects exhaustion with the
flag set, where the real loop would keep re-observing instantly). The
Python `elif filled_qty > 0 and ...` with its nested
`if status in ['PartiallyFilled', 'Submitted']` is written as one
conjoined guard: both failure modes fall through to `event.clear()` and
the next iteration with `no_progress_time` unchanged. -/
def wait_loop (expected : ℚ) (timeout : ℕ) :
    List Slice → ℕ → ℚ → ℕ → Bool → LoopRes
  | [], _, _, _, flag => LoopRes.toCancel flag
  | Slice.silence :: rest, elapsed, last_filled, no_progress_time, flag =>
      if timeout ≤ elapsed then LoopRes.toCancel flag
      else
        wait_loop expected timeout rest (elapsed + 5) last_filled
          (no_progress_time + 5) flag
  | Slice.event dt r :: rest, elapsed, last_filled, no_progress_time, flag =>
      if timeout ≤ elapsed then LoopRes.toCancel flag
      else
        let status := recStatus r
        let filled_qty := recFilled r
        let remaining_qty := recRemaining r expected
        let avg_price := recAvg r
        let lf := if last_filled < filled_qty then filled_qty else last_filled
        let np := if last_filled < filled_qty then 0 else no_progress_time
        if status == "Filled" then
          LoopRes.done ⟨true, filled_qty, 0, avg_price, status, false⟩
        else if status == "Cancelled" then
          LoopRes.done
            ⟨decide (0 < filled_qty), filled_qty, remaining_qty, avg_price,
              status, true⟩
        else if 0 < filled_qty ∧ filled_qty < expected ∧
            (status == "PartiallyFilled" ∨ status == "Submitted") then
          -- `continue` and `break` skip `event.clear()`: the flag stays set
          if 30 ≤ np + 5 then LoopRes.toCancel true
          else wait_loop expected timeout rest (elapsed + dt) lf (np + 5) true
        else
          -- fall-through: `event.clear()` runs
          wait_loop expected timeout rest (elapsed + dt) lf np false

/-- Lines 336-349 of `_wait_for_order_fill`: the fallback read of
`order_fills` returning whatever is known, with status `'Timeout'` and
`cancelled: False`. -/
def cancel_fallback (expected : ℚ) (r : Option OrderRec) : FillOutcome :=
  let filled_qty := recFilled r
  let remaining_qty := recRemaining r (expected - filled_qty)
  let avg_price := recAvg r
  ⟨decide (0 < filled_qty), filled_qty, remaining_qty, avg_price,
    "Timeout", false⟩

/-- `StockBuyer._wait_for_order_fill`: the wait loop followed, on fall
through, by the cancellation code (lines 305-349): `cancelOrder` is
called once; if it raises, the exception is caught and the fallback
runs; otherwise the 10-second confirmation `event.wait` at line 314
returns `True` immediately when the flag is still set at loop exit (as
on every stall break), or when a flag-setting callback arrives within
the grace window — returning status `'Cancelled'`, `cancelled: True`
from the current `order_fills` read — and only otherwise times out
into the fallback. The second component counts `cancelOrder`
invocations. -/
def wait_for_order_fill (expected : ℚ) (timeout : ℕ)
    (script : List Slice) (cenv : CancelEnv) : FillOutcome × ℕ :=
  match wait_loop expected timeout script 0 0 0 false with
  | LoopRes.done o => (o, 0)
  | LoopRes.toCancel flagSet =>
    if cenv.cancelRaises then
      (cancel_fallback expected cenv.finalRec, 1)
    else if flagSet || cenv.confirmEvent then
      let filled_qty := recFilled cenv.confirmRec
      let remaining_qty := recRemaining cenv.confirmRec (expected - filled_qty)
      let avg_price := recAvg cenv.confirmRec
      (⟨decide (0 < filled_qty), filled_qty, remaining_qty, avg_price,
          "Cancelled", true⟩, 1)
    else
      (cancel_fallback expected cenv.finalRec, 1)

/-- Gateway sanity condition on a callback script: a record carrying the
terminal status `'Filled'` reports a positive filled quantity (the
brokerage sends `Filled` only once the order has executed). -/
def scriptWF (script : List Slice) : Bool :=
  script.all fun s =>
    match s with
    | Slice.event _ (some r) => !(r.status == "Filled") || decide (0 < r.filled)
    | _ => true

/-- Consistency of a script with the `threading.Event` semantics,
mirroring the states `wait_loop` passes through: a wait cannot time out
(`silence`) while the flag is set; a wait against an already-set flag
returns instantly (`dt = 0`), and any wait returns within its 5-second
slice (`dt ≤ 5`); a script may end only once the loop has returned,
broken, timed out, or with the flag clear (with the flag set the real
loop would keep re-observing instantly rather than go silent). -/
def wait_loop_realizable (expected : ℚ) (timeout : ℕ) :
    List Slice → ℕ → ℚ → ℕ → Bool → Bool
  | [], elapsed, _, _, flag =>
      if timeout ≤ elapsed then true else !flag
  | Slice.silence :: rest, elapsed, last_filled, no_progress_time, flag =>
      if timeout ≤ elapsed then true
      else
        !flag && wait_loop_realizable expected timeout rest (elapsed + 5)
          last_filled (no_progress_time + 5) false
  | Slice.event dt r :: rest, elapsed, last_filled, no_progress_time, flag =>
      if timeout ≤ elapsed then true
      else
        (decide (dt ≤ 5) && (!flag || decide (dt = 0))) &&
        (let status := recStatus r
         let filled_qty := recFilled r
         let lf := if last_filled < filled_qty then filled_qty else last_filled
         let np := if last_filled < filled_qty then 0 else no_progress_time
         if status == "Filled" then true
         else if status == "Cancelled" then true
         else if 0 < filled_qty ∧ filled_qty < expected ∧
             (status == "PartiallyFilled" ∨ status == "Submitted") then
           if 30 ≤ np + 5 then true
           else wait_loop_realizable expected timeout rest (elapsed + dt) lf
             (np + 5) true
         else
           wait_loop_realizable expected timeout rest (elapsed + dt) lf np false)

/-- Every early `return` from inside the wait loop carries
`success = (filled_shares > 0)`, given the gateway sanity condition on
the script (the `status == 'Filled'` branch hard-codes `success: True`,
so it needs the condition; the `'Cancelled'` branch computes
`filled_qty > 0` directly). -/
theorem wait_loop_done_success (expected : ℚ) (timeout : ℕ)
    (script : List Slice) :
    ∀ (elapsed : ℕ) (lf : ℚ) (np : ℕ) (flag : Bool) (o : FillOutcome),
      scriptWF script = true →
      wait_loop expected timeout script elapsed lf np flag = LoopRes.done o →
      o.success = decide (0 < o.filled_shares) := by
  induction script with
  | nil =>
    intro elapsed lf np flag o _ h
    rw [wait_loop] at h
    simp at h
  | cons s rest ih =>
    intro elapsed lf np flag o hwf h
    rw [scriptWF, List.all_cons, Bool.and_eq_true] at hwf
    obtain ⟨hs, hrest⟩ := hwf
    cases s with
    | silence =>
      rw [wait_loop] at h
      split at h
      · simp at h
      · exact ih (elapsed + 5) lf (np + 5) flag o hrest h
    | event dt r =>
      rw [wait_loop] at h
      split at h
      · simp at h
      · simp only at h
        split at h
        · -- status == "Filled"
          rename_i hfilled
          cases r with
          | none => simp [recStatus] at hfilled
          | some rr =>
            simp only [recStatus] at hfilled
            cases h
            simp only [recFilled]
            simp only [beq_iff_eq] at hfilled
            simp only [hfilled, beq_self_eq_true, Bool.not_true,
              Bool.false_or] at hs
            simp [hs]
        · split at h
          · -- status == "Cancelled"
            cases h
            rfl
          · -- partial-fill branch or fall-through: either a stall break
            -- (`toCancel`, impossible here) or a recursive continuation
            repeat' split at h
            all_goals first
              | exact ih _ _ _ _ o hrest h
              | simp at h

/-! ## Claim C7 -/

/-- Claim C7: on every exit path of `_wait_for_order_fill` — terminal
`Filled` or `Cancelled` callback, stall, or timeout — the returned
`success` flag equals `filled_shares > 0`. Hypothesis: the gateway
sanity condition `scriptWF` (a callback record with status `'Filled'`
reports a positive filled quantity); without it the `'Filled'` branch,
which hard-codes `success: True`, could pair `success = true` with a
zero fill. A cancelled or stalled partial fill with nonzero filled
shares is in particular reported as a success. -/
theorem C7_success_eq_filled_pos (expected : ℚ) (timeout : ℕ)
    (script : List Slice) (cenv : CancelEnv)
    (hwf : scriptWF script = true) :
    (wait_for_order_fill expected timeout script cenv).1.success =
      decide (0 < (wait_for_order_fill expected timeout script cenv).1.filled_shares) := by
  unfold wait_for_order_fill
  cases h : wait_loop expected timeout script 0 0 0 false with
  | done o =>
    exact wait_loop_done_success expected timeout script 0 0 0 false o hwf h
  | toCancel flagSet =>
    by_cases hr : cenv.cancelRaises = true
    · simp [hr, cancel_fallback]
    · by_cases hc : (flagSet || cenv.confirmEvent) = true
      · simp [hr, hc]
      · simp [hr, hc, cancel_fallback]

/-- Witness for C7 at a concrete run: a single `Filled` callback for 10
shares at average price 5; the hypothesis `scriptWF` holds and the
returned `success` equals `filled_shares > 0`. -/
theorem C7_witness :
    scriptWF [Slice.event 1 (some ⟨"Filled", 10, 0, 5⟩)] = true ∧
    (wait_for_order_fill 10 120 [Slice.event 1 (some ⟨"Filled", 10, 0, 5⟩)]
        ⟨false, false, none, none⟩).1.success =
      decide (0 < (wait_for_order_fill 10 120
        [Slice.event 1 (some ⟨"Filled", 10, 0, 5⟩)]
        ⟨false, false, none, none⟩).1.filled_shares) :=
  ⟨by decide,
   C7_success_eq_filled_pos 10 120 [Slice.event 1 (some ⟨"Filled", 10, 0, 5⟩)]
     ⟨false, false, none, none⟩ (by decide)⟩

/-! ## Claim C3

The run exhibiting the claim's premise: a partial fill of 4 of 10
shares, followed by thirty seconds of the monitor's no-progress
accounting (six 5-second increments with no increase in the filled
quantity), triggering the stall break. -/

/-- The stalled partial-fill record: 4 of 10 shares filled. -/
def stallRec : OrderRec := ⟨"PartiallyFilled", 4, 6, 10⟩

/-- Six consecutive observations of the same partial fill: the first
resets the no-progress clock and each adds its 5-second increment, so
the sixth reaches the 30-second stall threshold and breaks. -/
def stallScript : List Slice :=
  [Slice.event 0 (some stallRec), Slice.event 0 (some stallRec),
   Slice.event 0 (some stallRec), Slice.event 0 (some stallRec),
   Slice.event 0 (some stallRec), Slice.event 0 (some stallRec)]

/-- Cancellation environment in which the cancel request succeeds but no
callback of any kind arrives during the 10-second grace wait: the
`order_fills` reads after the cancel still return the stalled partial
record. -/
def staleFlagEnv : CancelEnv := ⟨false, false, some stallRec, some stallRec⟩

/-- Claim C3: on every run in which the wait loop falls through to the
cancellation code with the order-event flag still set — as it is on
every stall break, since a partial fill followed by 30 seconds without
increase exits via the partial-fill branch, which never clears the
flag — `_wait_for_order_fill` issues exactly one `cancelOrder` call and
returns `cancelled = true` with status `'Cancelled'` and
`success = (filled_shares > 0)` (the line-314 grace wait returns
immediately on the still-set flag). Hypothesis: the `cancelOrder` call
itself does not raise (a gateway-availability sanity condition; a raise
is caught and routed to the fallback). -/
theorem C3_stall_cancel (expected : ℚ) (timeout : ℕ)
    (script : List Slice) (cenv : CancelEnv)
    (hstall : wait_loop expected timeout script 0 0 0 false =
      LoopRes.toCancel true)
    (hsend : cenv.cancelRaises = false) :
    (wait_for_order_fill expected timeout script cenv).2 = 1 ∧
    (wait_for_order_fill expected timeout script cenv).1.cancelled = true ∧
    (wait_for_order_fill expected timeout script cenv).1.status = "Cancelled" ∧
    (wait_for_order_fill expected timeout script cenv).1.success =
      decide (0 < (wait_for_order_fill expected timeout script cenv).1.filled_shares) := by
  unfold wait_for_order_fill
  rw [hstall]
  simp [hsend]

/-- Witness for C3 at the concrete stalled run: the script is
realizable under the event-flag semantics, the stall break exits with
the flag set, and the outcome is a confirmed cancel counted once. -/
theorem C3_stall_cancel_witness :
    wait_loop_realizable 10 120 stallScript 0 0 0 false = true ∧
    wait_loop 10 120 stallScript 0 0 0 false = LoopRes.toCancel true ∧
    staleFlagEnv.cancelRaises = false ∧
    ((wait_for_order_fill 10 120 stallScript staleFlagEnv).2 = 1 ∧
     (wait_for_order_fill 10 120 stallScript staleFlagEnv).1.cancelled = true ∧
     (wait_for_order_fill 10 120 stallScript staleFlagEnv).1.status = "Cancelled" ∧
     (wait_for_order_fill 10 120 stallScript staleFlagEnv).1.success =
       decide (0 <
         (wait_for_order_fill 10 120 stallScript staleFlagEnv).1.filled_shares)) :=
  ⟨by decide, by decide, rfl,
   C3_stall_cancel 10 120 stallScript staleFlagEnv (by decide) rfl⟩

/-! ## Claim C9 -/

/-- Counterexample to claim C9: a realizable stalled run (first
conjunct) exits the loop with the order-event flag still set (second
conjunct); the cancel request is sent and no confirming callback
arrives during the 10-second grace wait (`confirmEvent = false`, third
conjunct), yet the outcome is status `'Cancelled'` with
`cancelled = true` — not the `'Timeout'` / `cancelled = false` the
claim asserts — because the stale flag makes the line-314 wait return
instantly. -/
theorem C9_counterexample :
    wait_loop_realizable 10 120 stallScript 0 0 0 false = true ∧
    wait_loop 10 120 stallScript 0 0 0 false = LoopRes.toCancel true ∧
    staleFlagEnv.confirmEvent = false ∧
    wait_for_order_fill 10 120 stallScript staleFlagEnv =
      (⟨true, 4, 6, 10, "Cancelled", true⟩, 1) ∧
    (wait_for_order_fill 10 120 stallScript staleFlagEnv).1.status ≠ "Timeout" ∧
    (wait_for_order_fill 10 120 stallScript staleFlagEnv).1.cancelled ≠ false := by
  refine ⟨by decide, by decide, rfl, by decide, by decide, by decide⟩

/-- Claim C9, amended: if the wait loop falls through with the
order-event flag clear (a genuine-timeout exit with no stale
partial-fill observation pending — when the flag is still set, as on
every stall break, the grace wait instead returns immediately with a
confirmed cancel), the cancel request is sent successfully, and no
flag-setting callback arrives within the 10-second grace wait, then the
outcome has status `'Timeout'` and `cancelled = false` even though a
cancel request was sent (the call count is 1), with `filled_shares`,
`remaining_shares` and `avg_price` taken from the last known order
record — and when no callback was ever received (`finalRec = none`) the
defaults 0 / `expected` / 0. -/
theorem C9_grace_timeout (expected : ℚ) (timeout : ℕ)
    (script : List Slice) (cenv : CancelEnv)
    (hexit : wait_loop expected timeout script 0 0 0 false =
      LoopRes.toCancel false)
    (hsent : cenv.cancelRaises = false)
    (hsilent : cenv.confirmEvent = false) :
    wait_for_order_fill expected timeout script cenv =
      (⟨decide (0 < recFilled cenv.finalRec),
        recFilled cenv.finalRec,
        recRemaining cenv.finalRec (expected - recFilled cenv.finalRec),
        recAvg cenv.finalRec,
        "Timeout", false⟩, 1) ∧
    (cenv.finalRec = none →
      wait_for_order_fill expected timeout script cenv =
        (⟨false, 0, expected, 0, "Timeout", false⟩, 1)) := by
  unfold wait_for_order_fill
  rw [hexit]
  constructor
  · simp [hsent, hsilent, cancel_fallback]
  · intro hnone
    simp [hsent, hsilent, hnone, cancel_fallback, recFilled, recRemaining, recAvg]

/-- Witness for the amended C9: a realizable run with no callbacks at
all against a zero total timeout; the loop exits immediately with the
flag clear, the cancel is sent, nothing confirms, and the outcome is
the all-defaults `'Timeout'` record. -/
theorem C9_grace_timeout_witness :
    wait_loop_realizable 10 0 [] 0 0 0 false = true ∧
    wait_loop 10 0 [] 0 0 0 false = LoopRes.toCancel false ∧
    (wait_for_order_fill 10 0 [] ⟨false, false, none, none⟩ =
      (⟨decide (0 < recFilled (none : Option OrderRec)),
        recFilled (none : Option OrderRec),
        recRemaining (none : Option OrderRec) (10 - recFilled (none : Option OrderRec)),
        recAvg (none : Option OrderRec), "Timeout", false⟩, 1) ∧
     ((none : Option OrderRec) = none →
       wait_for_order_fill 10 0 [] ⟨false, false, none, none⟩ =
         (⟨false, 0, 10, 0, "Timeout", false⟩, 1))) :=
  ⟨by decide, by decide, C9_grace_timeout 10 0 [] ⟨false, false, none, none⟩
    (by decide) rfl rfl⟩

/-! ## Trade Executor (`StockBuyer.process_specific_trade` and helpers)

State threaded through one executor invocation: the parsed trade queue,
the ledger value, the error-log entries appended (by error type), and a
count of `placeOrder` invocations. Nondeterministic external outcomes
(connect, callbacks, per-order placement failures) are supplied by an
environment. An uncaught Python exception is `Except.error` carrying
the state at the raise. -/

/-- The two exception shapes that can reach the top-level handler of
`process_specific_trade` in the model: the `IndexError` of
`_remove_processed_trade` and the re-raised exception of
`_execute_sell_stop_orders` (logged as `SELL_STOP_ORDERS_FAILED`). -/
inductive PyErr where
  | indexError : PyErr
  | sellStopOrdersFailed : PyErr
deriving DecidableEq, Inhabited

/-- Python's `str.upper()` on the character sequence (ASCII upcasing,
written as a structural map so that it evaluates). -/
def pyUpper (s : String) : String :=
  String.mk (s.data.map Char.toUpper)

/-- The criteria test of `find_trade_by_criteria`: case-insensitive
ticker equality and price-range equality within `0.001`. -/
def matchesCriteria (t : Trade) (ticker : String)
    (lower_price higher_price : ℚ) : Bool :=
  pyUpper t.ticker == pyUpper ticker &&
  decide (|t.lower_price_range - lower_price| < 0.001) &&
  decide (|t.higher_price_range - higher_price| < 0.001)

/-- `StockBuyer.find_trade_by_criteria`: first trade matching the
criteria, with its index (the `enumerate` scan of the queue). -/
def find_trade_by_criteria (ticker : String) (lower_price higher_price : ℚ) :
    List Trade → Option (ℕ × Trade)
  | [] => none
  | t :: rest =>
    if matchesCriteria t ticker lower_price higher_price then some (0, t)
    else (find_trade_by_criteria ticker lower_price higher_price rest).map
      (fun p => (p.1 + 1, p.2))

/-- `StockBuyer._validate_trade`: the stop-shares sum must match the
planned shares within `0.001`, and `risk_amount` must not exceed the
available risk read from the ledger. -/
def sb_validate_trade (trade : Trade) (available_risk : ℚ) : Bool :=
  if |totalStopShares trade.sell_stops - trade.shares| > 0.001 then false
  else if trade.risk_amount > available_risk then false
  else true

/-- `StockBuyer._remove_processed_trade`: pop the trade at the given
index, raising `IndexError` when the index is out of range. -/
def remove_processed_trade (trades : List Trade) (trade_index : ℕ) :
    Except PyErr (List Trade × Trade) :=
  if h : trade_index < trades.length then
    Except.ok (trades.eraseIdx trade_index, trades.get ⟨trade_index, h⟩)
  else
    Except.error PyErr.indexError

/-- `StockBuyer._update_risk_amount`: `new_risk = current_risk -
risk_to_subtract`, written back with no negative floor. -/
def update_risk_amount (current_risk risk_to_subtract : ℚ) : ℚ :=
  current_risk - risk_to_subtract

/-- Outcome of `StockBuyer._connect_to_ib` together with the error-log
entries it writes: on a handshake timeout it logs `CONNECTION_TIMEOUT`,
raises, catches its own exception and logs `CONNECTION_FAILED`; on any
other connection exception it logs `CONNECTION_FAILED` alone. -/
inductive ConnectRes where
  | ok : ConnectRes
  | timedOut : ConnectRes
  | failed : ConnectRes
deriving DecidableEq, Inhabited

/-- `StockBuyer._connect_to_ib`: returns whether the connection
succeeded and the log entries written inside the helper. -/
def connect_to_ib : ConnectRes → Bool × List String
  | ConnectRes.ok => (true, [])
  | ConnectRes.timedOut => (false, ["CONNECTION_TIMEOUT", "CONNECTION_FAILED"])
  | ConnectRes.failed => (false, ["CONNECTION_FAILED"])

/-- Environment of `_execute_buy_order`: whether the code before the
order placement raises (contract/order construction), and the callback
script and cancellation environment consumed by the fill wait. -/
structure BuyEnv where
  raises : Bool
  script : List Slice
  cenv : CancelEnv

/-- The dict returned by `_execute_buy_order`. -/
structure BuyResult where
  success : Bool
  filled_shares : ℚ
  avg_price : ℚ
  full_fill : Bool
deriving DecidableEq, Inhabited

/-- `StockBuyer._execute_buy_order`: place the market buy and wait for
the fill with a 120-second total timeout; every exception inside is
caught and converted to the all-zero failure result (logging
`BUY_ORDER_FAILED`); a fill wait reporting no success logs
`BUY_ORDER_NO_FILL`. Returns the result, the log entries written, and
the number of `placeOrder` invocations. -/
def execute_buy_order (trade : Trade) (env : BuyEnv) :
    BuyResult × List String × ℕ :=
  if env.raises then
    (⟨false, 0, 0, false⟩, ["BUY_ORDER_FAILED"], 0)
  else
    let fill_result := (wait_for_order_fill trade.shares 120 env.script env.cenv).1
    if fill_result.success then
      (⟨true, fill_result.filled_shares, fill_result.avg_price,
        decide (fill_result.filled_shares = trade.shares)⟩, [], 1)
    else
      (⟨false, 0, 0, false⟩, ["BUY_ORDER_NO_FILL"], 1)

/-- Environment of `_execute_sell_stop_orders`: whether the code outside
the per-stop `try` raises (contract creation, before the loop), and
which per-stop `placeOrder` calls raise (by 0-based stop position; the
source's `enumerate(trade.sell_stops, 1)` index is 1-based but feeds
only the log text). -/
structure StopsEnv where
  outerRaises : Bool
  placeFails : ℕ → Bool

/-- The per-stop loop of `_execute_sell_stop_orders` (lines 594-623):
scale each stop by `scale_factor`, flooring to whole shares; skip stops
that floor to 0; a per-stop placement failure is logged as
`SELL_STOP_ORDER_FAILED` and the loop continues with the remaining
stops. Returns the placed `(shares, price)` orders and the log
entries. -/
def place_stop_orders_loop (scale_factor : ℚ) (placeFails : ℕ → Bool) :
    List SellStopOrder → ℕ → List (ℤ × ℚ) × List String
  | [], _ => ([], [])
  | stop :: rest, i =>
    let scaled_shares := ⌊stop.shares * scale_factor⌋
    if scaled_shares = 0 then
      place_stop_orders_loop scale_factor placeFails rest (i + 1)
    else if placeFails i then
      let r := place_stop_orders_loop scale_factor placeFails rest (i + 1)
      (r.1, "SELL_STOP_ORDER_FAILED" :: r.2)
    else
      let r := place_stop_orders_loop scale_factor placeFails rest (i + 1)
      ((scaled_shares, stop.price) :: r.1, r.2)

/-- `StockBuyer._execute_sell_stop_orders`: skip everything when no
shares were bought; compute `scale_factor = actual_shares_bought /
trade.shares` and run the per-stop loop; an exception outside the
per-stop `try` is logged as `SELL_STOP_ORDERS_FAILED` and re-raised
(the only helper that re-raises after logging). -/
def execute_sell_stop_orders (trade : Trade) (actual_shares_bought : ℚ)
    (env : StopsEnv) : Except PyErr (List (ℤ × ℚ) × List String) :=
  if actual_shares_bought = 0 then Except.ok ([], [])
  else if env.outerRaises then Except.error PyErr.sellStopOrdersFailed
  else
    let scale_factor := actual_shares_bought / trade.shares
    Except.ok (place_stop_orders_loop scale_factor env.placeFails
      trade.sell_stops 0)

/-- Durable and observable state threaded through one executor run. -/
structure ExecState where
  trades : List Trade
  risk : ℚ
  log : List String
  ordersPlaced : ℕ
deriving DecidableEq, Inhabited

/-- Environment of one `process_specific_trade` run. -/
structure ExecEnv where
  connect : ConnectRes
  buy : BuyEnv
  stops : StopsEnv

/-- The `try:` body of `StockBuyer.process_specific_trade` (lines
694-752): lookup → validate (failing → log, evict, return failure) →
connect (failing → log, return failure, trade left queued) → dequeue →
debit ledger → buy (no fill → log, return failure) → place stops →
return success. `Except.error` is an exception escaping to the
top-level handler, carrying the state at the raise. -/
def process_inner (st : ExecState) (env : ExecEnv)
    (ticker : String) (lower_price higher_price : ℚ) :
    Except (ExecState × PyErr) (ExecState × Bool) :=
  match find_trade_by_criteria ticker lower_price higher_price st.trades with
  | none =>
      Except.ok ({ st with log := st.log ++ ["TRADE_NOT_FOUND"] }, false)
  | some (trade_index, trade) =>
      if sb_validate_trade trade st.risk = false then
        match remove_processed_trade st.trades trade_index with
        | Except.ok (trades2, _) =>
            Except.ok
              ({ st with
                  trades := trades2
                  log := st.log ++ ["TRADE_VALIDATION_FAILED"] }, false)
        | Except.error e =>
            Except.error
              ({ st with log := st.log ++ ["TRADE_VALIDATION_FAILED"] }, e)
      else
        let conn := connect_to_ib env.connect
        if conn.1 = false then
          Except.ok
            ({ st with log := st.log ++ conn.2 ++ ["CONNECTION_FAILED"] }, false)
        else
          match remove_processed_trade st.trades trade_index with
          | Except.error e =>
              Except.error ({ st with log := st.log ++ conn.2 }, e)
          | Except.ok (trades2, _) =>
            let st2 : ExecState :=
              { st with
                  trades := trades2
                  log := st.log ++ conn.2 }
            let st3 : ExecState :=
              { st2 with risk := update_risk_amount st2.risk trade.risk_amount }
            let buy := execute_buy_order trade env.buy
            let st4 : ExecState :=
              { st3 with
                  log := st3.log ++ buy.2.1
                  ordersPlaced := st3.ordersPlaced + buy.2.2 }
            if buy.1.success = false then
              Except.ok
                ({ st4 with
                    log := st4.log ++ ["BUY_ORDER_COMPLETE_FAILURE"] }, false)
            else
              match execute_sell_stop_orders trade buy.1.filled_shares env.stops with
              | Except.error e =>
                  Except.error
                    ({ st4 with
                        log := st4.log ++ ["SELL_STOP_ORDERS_FAILED"] }, e)
              | Except.ok (placed, slogs) =>
                  Except.ok
                    ({ st4 with
                        log := st4.log ++ slogs
                        ordersPlaced := st4.ordersPlaced + placed.length }, true)

/-- `StockBuyer.process_specific_trade`: the `try:` body wrapped in the
top-level `except Exception` handler, which logs
`TRADE_PROCESSING_ERROR` and converts every escaping exception into a
boolean failure return (the `finally:` disconnect has no effect on the
modelled state). -/
def process_specific_trade (st : ExecState) (env : ExecEnv)
    (ticker : String) (lower_price higher_price : ℚ) : ExecState × Bool :=
  match process_inner st env ticker lower_price higher_price with
  | Except.ok r => r
  | Except.error (st2, _) =>
      ({ st2 with log := st2.log ++ ["TRADE_PROCESSING_ERROR"] }, false)

/-- Soundness of the queue lookup: a hit returns an in-range index, the
element stored at that index, a matching trade, and no match earlier in
the queue (the scan returns the first hit). -/
theorem find_trade_spec (ticker : String) (lo hi : ℚ) :
    ∀ (trades : List Trade) (i : ℕ) (t : Trade),
      find_trade_by_criteria ticker lo hi trades = some (i, t) →
      i < trades.length ∧ trades[i]? = some t ∧
        matchesCriteria t ticker lo hi = true ∧
        ∀ u ∈ trades.take i, matchesCriteria u ticker lo hi = false := by
  intro trades
  induction trades with
  | nil => intro i t h; simp [find_trade_by_criteria] at h
  | cons a rest ih =>
    intro i t h
    rw [find_trade_by_criteria] at h
    split at h
    · rename_i hm
      simp only [Option.some.injEq, Prod.mk.injEq] at h
      obtain ⟨hi, ht⟩ := h
      subst hi; subst ht
      exact ⟨by simp, by simp, hm, by simp⟩
    · rename_i hm
      cases hfind : find_trade_by_criteria ticker lo hi rest with
      | none => rw [hfind] at h; simp at h
      | some p =>
        rw [hfind] at h
        simp only [Option.map_some', Option.some.injEq, Prod.mk.injEq] at h
        obtain ⟨hi, ht⟩ := h
        subst hi; subst ht
        obtain ⟨h1, h2, h3, h4⟩ := ih p.1 p.2 hfind
        refine ⟨by simpa using h1, by simpa using h2, h3, ?_⟩
        intro u hu
        rw [List.take_succ_cons] at hu
        rcases List.mem_cons.mp hu with hu | hu
        · subst hu
          exact Bool.not_eq_true _ ▸ eq_false_of_ne_true hm
        · exact h4 u hu

/-- An in-range dequeue returns the shortened queue and the element. -/
theorem remove_ok (trades : List Trade) (i : ℕ) (h : i < trades.length) :
    remove_processed_trade trades i =
      Except.ok (trades.eraseIdx i, trades.get ⟨i, h⟩) := by
  simp [remove_processed_trade, h]

/-- The only exception `_execute_sell_stop_orders` can raise is the one
re-raised after logging `SELL_STOP_ORDERS_FAILED`. -/
theorem execute_sell_stop_orders_error (trade : Trade) (actual : ℚ)
    (env : StopsEnv) (e : PyErr)
    (h : execute_sell_stop_orders trade actual env = Except.error e) :
    e = PyErr.sellStopOrdersFailed := by
  unfold execute_sell_stop_orders at h
  split at h
  · simp at h
  · split at h
    · simp only [Except.error.injEq] at h
      exact h.symm
    · simp at h

/-- Normal form of the `try:` body on the path that passes lookup,
validation and connect: the trade is dequeued, the ledger debited, and
the remaining behavior is decided by the buy result and the stop
placement alone — neither the queue nor the ledger is touched again. -/
theorem process_inner_main (st : ExecState) (env : ExecEnv) (ticker : String)
    (lower_price higher_price : ℚ) (i : ℕ) (tr : Trade)
    (hfind : find_trade_by_criteria ticker lower_price higher_price st.trades =
      some (i, tr))
    (hval : sb_validate_trade tr st.risk = true)
    (hconn : env.connect = ConnectRes.ok) :
    process_inner st env ticker lower_price higher_price =
      (if (execute_buy_order tr env.buy).1.success = false then
        Except.ok
          (⟨st.trades.eraseIdx i, update_risk_amount st.risk tr.risk_amount,
            (st.log ++ (execute_buy_order tr env.buy).2.1) ++
              ["BUY_ORDER_COMPLETE_FAILURE"],
            st.ordersPlaced + (execute_buy_order tr env.buy).2.2⟩, false)
      else
        match execute_sell_stop_orders tr
            (execute_buy_order tr env.buy).1.filled_shares env.stops with
        | Except.error e =>
            Except.error
              (⟨st.trades.eraseIdx i, update_risk_amount st.risk tr.risk_amount,
                (st.log ++ (execute_buy_order tr env.buy).2.1) ++
                  ["SELL_STOP_ORDERS_FAILED"],
                st.ordersPlaced + (execute_buy_order tr env.buy).2.2⟩, e)
        | Except.ok (placed, slogs) =>
            Except.ok
              (⟨st.trades.eraseIdx i, update_risk_amount st.risk tr.risk_amount,
                (st.log ++ (execute_buy_order tr env.buy).2.1) ++ slogs,
                (st.ordersPlaced + (execute_buy_order tr env.buy).2.2) +
                  placed.length⟩, true)) := by
  have hlt := (find_trade_spec ticker lower_price higher_price st.trades i tr hfind).1
  unfold process_inner
  rw [hfind]
  simp only [hval, Bool.true_eq_false, if_false, hconn, connect_to_ib,
    remove_ok st.trades i hlt, List.append_nil]

/-! ## Claim C1 -/

/-- Concrete queued trade for the C1 run (the spec §8 scenario shape). -/
def tradeC1 : Trade :=
  ⟨"AAPL", 10, 500, 145, 155, [⟨150, 5⟩, ⟨145, 3⟩, ⟨140, 2⟩]⟩

/-- Initial state for the C1 run: one queued trade, 1000 available risk. -/
def st0C1 : ExecState := ⟨[tradeC1], 1000, [], 0⟩

/-- Environment for the C1 run: connect succeeds, the buy fills in full,
and the stop-placement phase raises outside the per-stop handler. -/
def envC1 : ExecEnv :=
  ⟨ConnectRes.ok,
   ⟨false, [Slice.event 1 (some ⟨"Filled", 10, 0, 150⟩)], ⟨false, false, none, none⟩⟩,
   ⟨true, fun _ => false⟩⟩

/-- Counterexample to claim C1: on a run whose stop-placement phase
raises (the `try:` body ends in `Except.error` carrying the re-raised
`SELL_STOP_ORDERS_FAILED` exception), `process_specific_trade` does not
re-raise to its caller: its top-level handler logs
`TRADE_PROCESSING_ERROR` and returns the boolean failure `false`. -/
theorem C1_counterexample :
    process_inner st0C1 envC1 "AAPL" 145 155 =
      Except.error (⟨[], 500, ["SELL_STOP_ORDERS_FAILED"], 1⟩,
        PyErr.sellStopOrdersFailed) ∧
    process_specific_trade st0C1 envC1 "AAPL" 145 155 =
      (⟨[], 500, ["SELL_STOP_ORDERS_FAILED", "TRADE_PROCESSING_ERROR"], 1⟩,
        false) := by
  have hinner : process_inner st0C1 envC1 "AAPL" 145 155 =
      Except.error (⟨[], 500, ["SELL_STOP_ORDERS_FAILED"], 1⟩,
        PyErr.sellStopOrdersFailed) := by
    norm_num [process_inner, tradeC1, st0C1, envC1, find_trade_by_criteria,
      matchesCriteria, pyUpper, sb_validate_trade, totalStopShares,
      remove_processed_trade, update_risk_amount, connect_to_ib,
      execute_buy_order, wait_for_order_fill, wait_loop, recStatus, recFilled,
      recRemaining, recAvg, execute_sell_stop_orders, List.eraseIdx]
  refine ⟨hinner, ?_⟩
  unfold process_specific_trade
  rw [hinner]
  rfl

/-- Claim C1, amended: `SELL_STOP_ORDERS_FAILED` is the only error kind
that escapes a helper of the executor as an exception (every exception
reaching the top-level handler of `process_specific_trade` is the one
re-raised by `_execute_sell_stop_orders` after logging
`SELL_STOP_ORDERS_FAILED`), but `process_specific_trade` does not
re-raise it to its caller: the top-level handler catches it like every
other error kind, logs `TRADE_PROCESSING_ERROR`, and converts it to a
boolean failure return. -/
theorem C1_amended (st : ExecState) (env : ExecEnv) (ticker : String)
    (lower_price higher_price : ℚ) (st2 : ExecState) (e : PyErr)
    (herr : process_inner st env ticker lower_price higher_price =
      Except.error (st2, e)) :
    e = PyErr.sellStopOrdersFailed ∧
    "SELL_STOP_ORDERS_FAILED" ∈ st2.log ∧
    process_specific_trade st env ticker lower_price higher_price =
      ({ st2 with log := st2.log ++ ["TRADE_PROCESSING_ERROR"] }, false) := by
  have hps : process_specific_trade st env ticker lower_price higher_price =
      ({ st2 with log := st2.log ++ ["TRADE_PROCESSING_ERROR"] }, false) := by
    unfold process_specific_trade
    rw [herr]
  refine ⟨?_, ?_, hps⟩ <;>
  · cases hfind : find_trade_by_criteria ticker lower_price higher_price st.trades with
    | none =>
      rw [process_inner, hfind] at herr
      simp at herr
    | some p =>
      obtain ⟨i, tr⟩ := p
      have hlt := (find_trade_spec ticker lower_price higher_price st.trades i tr hfind).1
      by_cases hval : sb_validate_trade tr st.risk = true
      · by_cases hconn : env.connect = ConnectRes.ok
        · rw [process_inner_main st env ticker lower_price higher_price i tr
            hfind hval hconn] at herr
          split at herr
          · simp at herr
          · cases hstop : execute_sell_stop_orders tr
                (execute_buy_order tr env.buy).1.filled_shares env.stops with
            | ok r =>
              rw [hstop] at herr
              obtain ⟨placed, slogs⟩ := r
              simp at herr
            | error e2 =>
              rw [hstop] at herr
              simp only [Except.error.injEq, Prod.mk.injEq] at herr
              obtain ⟨hst, he⟩ := herr
              have he2 := execute_sell_stop_orders_error tr
                (execute_buy_order tr env.buy).1.filled_shares env.stops e2 hstop
              first
                | exact he ▸ he2
                | · rw [← hst]
                    simp
        · rw [process_inner, hfind] at herr
          cases hc : env.connect with
          | ok => exact absurd hc hconn
          | timedOut => rw [hc] at herr; simp [hval, connect_to_ib] at herr
          | failed => rw [hc] at herr; simp [hval, connect_to_ib] at herr
      · rw [process_inner, hfind] at herr
        simp [eq_false_of_ne_true hval, remove_ok st.trades i hlt] at herr

/-! ## Claim C2 -/

/-- Claim C2: for every trade that passes lookup, validation and
connect, the executor removes the trade from the queue exactly once
(the final queue is the original with exactly the found index erased —
never requeued, whatever happens later) and debits the ledger by
`trade.risk_amount` unconditionally with no negative floor; if the buy
then fills zero shares (`success = false`), the run returns failure
with the ledger still debited. -/
theorem C2_dequeue_debit (st : ExecState) (env : ExecEnv) (ticker : String)
    (lower_price higher_price : ℚ) (i : ℕ) (tr : Trade)
    (hfind : find_trade_by_criteria ticker lower_price higher_price st.trades =
      some (i, tr))
    (hval : sb_validate_trade tr st.risk = true)
    (hconn : env.connect = ConnectRes.ok) :
    (process_specific_trade st env ticker lower_price higher_price).1.trades =
      st.trades.eraseIdx i ∧
    (process_specific_trade st env ticker lower_price higher_price).1.risk =
      st.risk - tr.risk_amount ∧
    ((execute_buy_order tr env.buy).1.success = false →
      (process_specific_trade st env ticker lower_price higher_price).2 = false) := by
  unfold process_specific_trade
  rw [process_inner_main st env ticker lower_price higher_price i tr hfind hval hconn]
  by_cases hbuy : (execute_buy_order tr env.buy).1.success = false
  · simp [hbuy, update_risk_amount]
  · rw [if_neg hbuy]
    cases hstop : execute_sell_stop_orders tr
        (execute_buy_order tr env.buy).1.filled_shares env.stops with
    | ok r =>
      obtain ⟨placed, slogs⟩ := r
      simp [update_risk_amount, hbuy]
    | error e =>
      simp [update_risk_amount]

/-- Concrete queued trade for the C2 run. -/
def tradeC2 : Trade :=
  ⟨"MSFT", 10, 400, 200, 210, [⟨205, 5⟩, ⟨202, 3⟩, ⟨201, 2⟩]⟩

/-- Initial state for the C2 run: one queued trade, 1000 available risk. -/
def st0C2 : ExecState := ⟨[tradeC2], 1000, [], 0⟩

/-- Environment for the C2 run: connect succeeds; the buy draws no
callbacks at all, so the fill wait times out, cancels without
confirmation, and reports zero filled shares (a complete buy failure). -/
def envC2 : ExecEnv :=
  ⟨ConnectRes.ok,
   ⟨false, [], ⟨false, false, none, none⟩⟩,
   ⟨false, fun _ => false⟩⟩

/-- Witness for C2 at the concrete zero-fill run: lookup, validation and
connect succeed, the buy fills nothing, and the final state shows the
dequeue, the unrefunded debit, and the failure return. -/
theorem C2_witness :
    find_trade_by_criteria "MSFT" 200 210 st0C2.trades = some (0, tradeC2) ∧
    sb_validate_trade tradeC2 st0C2.risk = true ∧
    envC2.connect = ConnectRes.ok ∧
    ((process_specific_trade st0C2 envC2 "MSFT" 200 210).1.trades =
        st0C2.trades.eraseIdx 0 ∧
      (process_specific_trade st0C2 envC2 "MSFT" 200 210).1.risk =
        st0C2.risk - tradeC2.risk_amount ∧
      ((execute_buy_order tradeC2 envC2.buy).1.success = false →
        (process_specific_trade st0C2 envC2 "MSFT" 200 210).2 = false)) := by
  have h1 : find_trade_by_criteria "MSFT" 200 210 st0C2.trades =
      some (0, tradeC2) := by
    norm_num [find_trade_by_criteria, matchesCriteria, pyUpper, st0C2, tradeC2]
  have h2 : sb_validate_trade tradeC2 st0C2.risk = true := by
    norm_num [sb_validate_trade, totalStopShares, st0C2, tradeC2]
  exact ⟨h1, h2, rfl,
    C2_dequeue_debit st0C2 envC2 "MSFT" 200 210 0 tradeC2 h1 h2 rfl⟩

/-! ## Claim C6 -/

/-- A missed lookup is exactly a queue with no matching entry. -/
theorem find_trade_none (ticker : String) (lo hi : ℚ) :
    ∀ l : List Trade, find_trade_by_criteria ticker lo hi l = none ↔
      ∀ u ∈ l, matchesCriteria u ticker lo hi = false := by
  intro l
  induction l with
  | nil => simp [find_trade_by_criteria]
  | cons a rest ih =>
    rw [find_trade_by_criteria]
    by_cases hm : matchesCriteria a ticker lo hi = true
    · simp [hm, List.forall_mem_cons]
    · have hm' := eq_false_of_ne_true hm
      simp [hm', List.forall_mem_cons, Option.map_eq_none', ih]

/-- Evicting the found trade removes the last matching entry whenever
the queue holds at most one match (the duplicate-rejection shape that
`TradesModifier.add_trade` maintains): a subsequent lookup misses. -/
theorem erased_no_match (ticker : String) (lo hi : ℚ) (l : List Trade)
    (i : ℕ) (tr : Trade)
    (hfind : find_trade_by_criteria ticker lo hi l = some (i, tr))
    (huniq : (l.filter (fun u => matchesCriteria u ticker lo hi)).length ≤ 1) :
    find_trade_by_criteria ticker lo hi (l.eraseIdx i) = none := by
  obtain ⟨hlt, hget, hmatch, htake⟩ := find_trade_spec ticker lo hi l i tr hfind
  rw [find_trade_none, List.eraseIdx_eq_take_drop_succ]
  intro u hu
  rcases List.mem_append.mp hu with hu | hu
  · exact htake u hu
  · by_contra hne
    have hm : matchesCriteria u ticker lo hi = true := by
      revert hne; cases matchesCriteria u ticker lo hi <;> simp
    have hgetel : l[i] = tr := by
      have h := List.getElem?_eq_getElem hlt
      rw [h] at hget
      exact Option.some.inj hget
    have hdrop : l.drop i = tr :: l.drop (i + 1) := by
      rw [List.drop_eq_getElem_cons hlt, hgetel]
    have hdec : l = l.take i ++ (tr :: l.drop (i + 1)) := by
      rw [← hdrop, List.take_append_drop]
    have htfil : (l.take i).filter (fun u => matchesCriteria u ticker lo hi) = [] :=
      List.filter_eq_nil_iff.mpr (by
        intro a ha
        simp [htake a ha])
    have hufil : u ∈ (l.drop (i + 1)).filter
        (fun u => matchesCriteria u ticker lo hi) :=
      List.mem_filter.mpr ⟨hu, hm⟩
    have hpos : 0 < ((l.drop (i + 1)).filter
        (fun u => matchesCriteria u ticker lo hi)).length :=
      List.length_pos.mpr (List.ne_nil_of_mem hufil)
    have hcount : (l.filter (fun u => matchesCriteria u ticker lo hi)).length =
        ((l.drop (i + 1)).filter (fun u => matchesCriteria u ticker lo hi)).length + 1 := by
      conv_lhs => rw [hdec]
      rw [List.filter_append, htfil]
      simp [List.filter_cons, hmatch]
    omega

/-- Claim C6: a found trade that fails execution-time validation is
logged as `TRADE_VALIDATION_FAILED`, evicted from the queue exactly
once (the final queue is the original with the found index erased),
leaves the risk ledger unchanged, places no orders, and returns
failure; under the queue's duplicate-rejection shape (at most one entry
matches the criteria) the evicted trade never reappears in a lookup. -/
theorem C6_validation_eviction (st : ExecState) (env : ExecEnv)
    (ticker : String) (lower_price higher_price : ℚ) (i : ℕ) (tr : Trade)
    (hfind : find_trade_by_criteria ticker lower_price higher_price st.trades =
      some (i, tr))
    (hval : sb_validate_trade tr st.risk = false) :
    (process_specific_trade st env ticker lower_price higher_price).2 = false ∧
    (process_specific_trade st env ticker lower_price higher_price).1.trades =
      st.trades.eraseIdx i ∧
    (process_specific_trade st env ticker lower_price higher_price).1.risk =
      st.risk ∧
    (process_specific_trade st env ticker lower_price higher_price).1.ordersPlaced =
      st.ordersPlaced ∧
    "TRADE_VALIDATION_FAILED" ∈
      (process_specific_trade st env ticker lower_price higher_price).1.log ∧
    ((st.trades.filter
        (fun u => matchesCriteria u ticker lower_price higher_price)).length ≤ 1 →
      find_trade_by_criteria ticker lower_price higher_price
        (process_specific_trade st env ticker lower_price higher_price).1.trades =
          none) := by
  have hlt := (find_trade_spec ticker lower_price higher_price st.trades i tr hfind).1
  have hred : process_specific_trade st env ticker lower_price higher_price =
      (⟨st.trades.eraseIdx i, st.risk,
        st.log ++ ["TRADE_VALIDATION_FAILED"], st.ordersPlaced⟩, false) := by
    unfold process_specific_trade process_inner
    rw [hfind]
    simp [hval, remove_ok st.trades i hlt]
  rw [hred]
  refine ⟨rfl, rfl, rfl, rfl, by simp, ?_⟩
  intro huniq
  exact erased_no_match ticker lower_price higher_price st.trades i tr hfind huniq

/-- Witness for the amended C1 at the concrete run of the
counterexample environment: the escaped exception is the stop-placement
one and the top-level handler converts it to a boolean failure. -/
theorem C1_amended_witness :
    PyErr.sellStopOrdersFailed = PyErr.sellStopOrdersFailed ∧
    "SELL_STOP_ORDERS_FAILED" ∈
      (⟨[], 500, ["SELL_STOP_ORDERS_FAILED"], 1⟩ : ExecState).log ∧
    process_specific_trade st0C1 envC1 "AAPL" 145 155 =
      ({ (⟨[], 500, ["SELL_STOP_ORDERS_FAILED"], 1⟩ : ExecState) with
          log := (⟨[], 500, ["SELL_STOP_ORDERS_FAILED"], 1⟩ : ExecState).log ++
            ["TRADE_PROCESSING_ERROR"] }, false) :=
  C1_amended st0C1 envC1 "AAPL" 145 155
    ⟨[], 500, ["SELL_STOP_ORDERS_FAILED"], 1⟩ PyErr.sellStopOrdersFailed
    (by norm_num [process_inner, tradeC1, st0C1, envC1, find_trade_by_criteria,
      matchesCriteria, pyUpper, sb_validate_trade, totalStopShares,
      remove_processed_trade, update_risk_amount, connect_to_ib,
      execute_buy_order, wait_for_order_fill, wait_loop, recStatus, recFilled,
      recRemaining, recAvg, execute_sell_stop_orders, List.eraseIdx])

/-- Concrete invalid trade for the C6 run: its stop shares sum to 8
against 10 planned shares, off by more than the 0.001 tolerance. -/
def tradeC6 : Trade := ⟨"TSLA", 10, 400, 100, 110, [⟨105, 5⟩, ⟨103, 3⟩]⟩

/-- Initial state for the C6 run. -/
def st0C6 : ExecState := ⟨[tradeC6], 1000, [], 0⟩

/-- Environment for the C6 run (never reached past validation). -/
def envC6 : ExecEnv :=
  ⟨ConnectRes.ok, ⟨false, [], ⟨false, false, none, none⟩⟩,
   ⟨false, fun _ => false⟩⟩

/-- Witness for C6 at the concrete invalid trade: the lookup hits, the
validation fails, and the eviction conclusions hold. -/
theorem C6_witness :
    find_trade_by_criteria "TSLA" 100 110 st0C6.trades = some (0, tradeC6) ∧
    sb_validate_trade tradeC6 st0C6.risk = false ∧
    ((process_specific_trade st0C6 envC6 "TSLA" 100 110).2 = false ∧
      (process_specific_trade st0C6 envC6 "TSLA" 100 110).1.trades =
        st0C6.trades.eraseIdx 0 ∧
      (process_specific_trade st0C6 envC6 "TSLA" 100 110).1.risk = st0C6.risk ∧
      (process_specific_trade st0C6 envC6 "TSLA" 100 110).1.ordersPlaced =
        st0C6.ordersPlaced ∧
      "TRADE_VALIDATION_FAILED" ∈
        (process_specific_trade st0C6 envC6 "TSLA" 100 110).1.log ∧
      ((st0C6.trades.filter
          (fun u => matchesCriteria u "TSLA" 100 110)).length ≤ 1 →
        find_trade_by_criteria "TSLA" 100 110
          (process_specific_trade st0C6 envC6 "TSLA" 100 110).1.trades =
            none)) := by
  have h1 : find_trade_by_criteria "TSLA" 100 110 st0C6.trades =
      some (0, tradeC6) := by
    norm_num [find_trade_by_criteria, matchesCriteria, pyUpper, st0C6, tradeC6]
  have h2 : sb_validate_trade tradeC6 st0C6.risk = false := by
    norm_num [sb_validate_trade, totalStopShares, st0C6, tradeC6]
  exact ⟨h1, h2,
    C6_validation_eviction st0C6 envC6 "TSLA" 100 110 0 tradeC6 h1 h2⟩

/-! ## Claim C5 -/

/-- Rounding each summand down cannot exceed the floor of the sum. -/
theorem list_sum_floor_le (l : List ℚ) :
    (l.map (fun x => ⌊x⌋)).sum ≤ ⌊l.sum⌋ := by
  induction l with
  | nil => simp
  | cons x xs ih =>
    simp only [List.map_cons, List.sum_cons]
    calc ⌊x⌋ + (xs.map (fun x => ⌊x⌋)).sum ≤ ⌊x⌋ + ⌊xs.sum⌋ := by
          exact add_le_add_left ih _
      _ ≤ ⌊x + xs.sum⌋ := Int.le_floor_add x xs.sum

/-- Completeness of the stop loop: a stop whose scaled size is nonzero
and whose placement does not fail is placed, whatever happens to the
other stops (placement independence). -/
theorem place_loop_mem_of_ok (scale_factor : ℚ) (placeFails : ℕ → Bool) :
    ∀ (stops : List SellStopOrder) (k : ℕ) (j : ℕ) (hj : j < stops.length),
      placeFails (k + j) = false →
      ⌊(stops.get ⟨j, hj⟩).shares * scale_factor⌋ ≠ 0 →
      (⌊(stops.get ⟨j, hj⟩).shares * scale_factor⌋, (stops.get ⟨j, hj⟩).price) ∈
        (place_stop_orders_loop scale_factor placeFails stops k).1 := by
  intro stops
  induction stops with
  | nil => intro k j hj; simp at hj
  | cons s rest ih =>
    intro k j hj hf hnz
    cases j with
    | zero =>
      simp only [List.get] at hnz ⊢
      simp only [Nat.add_zero] at hf
      simp only [place_stop_orders_loop]
      rw [if_neg hnz, if_neg (by simp [hf])]
      simp
    | succ j =>
      have hj' : j < rest.length := Nat.lt_of_succ_lt_succ hj
      have hf' : placeFails (k + 1 + j) = false := by
        have harg : k + 1 + j = k + (j + 1) := by omega
        rw [harg]; exact hf
      simp only [List.get] at hnz ⊢
      have hrec := ih (k + 1) j hj' hf' hnz
      simp only [place_stop_orders_loop]
      split
      · exact hrec
      · split
        · exact hrec
        · exact List.mem_cons_of_mem _ hrec

/-- Soundness of the stop loop: every placed order is one of the input
stops scaled by the floor, and stops flooring to 0 never appear. -/
theorem place_loop_mem_inv (scale_factor : ℚ) (placeFails : ℕ → Bool) :
    ∀ (stops : List SellStopOrder) (k : ℕ) (p : ℤ × ℚ),
      p ∈ (place_stop_orders_loop scale_factor placeFails stops k).1 →
      ∃ s ∈ stops,
        p.1 = ⌊s.shares * scale_factor⌋ ∧ p.2 = s.price ∧ p.1 ≠ 0 := by
  intro stops
  induction stops with
  | nil => intro k p hp; simp [place_stop_orders_loop] at hp
  | cons s rest ih =>
    intro k p hp
    simp only [place_stop_orders_loop] at hp
    split at hp
    · obtain ⟨u, hu, h⟩ := ih (k + 1) p hp
      exact ⟨u, List.mem_cons_of_mem _ hu, h⟩
    · split at hp
      · obtain ⟨u, hu, h⟩ := ih (k + 1) p hp
        exact ⟨u, List.mem_cons_of_mem _ hu, h⟩
      · rename_i hnz hfail
        rcases List.mem_cons.mp hp with hp | hp
        · subst hp
          exact ⟨s, List.mem_cons_self s rest, rfl, rfl, hnz⟩
        · obtain ⟨u, hu, h⟩ := ih (k + 1) p hp
          exact ⟨u, List.mem_cons_of_mem _ hu, h⟩

/-- The scaled sizes never overshoot: their sum is at most the ceiling
of the scaled total. -/
theorem scaled_sum_le_ceil (stops : List SellStopOrder) (scale_factor : ℚ) :
    (stops.map (fun s => ⌊s.shares * scale_factor⌋)).sum ≤
      ⌈totalStopShares stops * scale_factor⌉ := by
  have h1 : (stops.map (fun s => ⌊s.shares * scale_factor⌋)).sum ≤
      ⌊(stops.map (fun s => s.shares * scale_factor)).sum⌋ := by
    have h := list_sum_floor_le (stops.map (fun s => s.shares * scale_factor))
    rw [List.map_map] at h
    exact h
  have h2 : (stops.map (fun s => s.shares * scale_factor)).sum =
      totalStopShares stops * scale_factor := by
    rw [totalStopShares, ← List.sum_map_mul_right]
  calc (stops.map (fun s => ⌊s.shares * scale_factor⌋)).sum
      ≤ ⌊(stops.map (fun s => s.shares * scale_factor)).sum⌋ := h1
    _ ≤ ⌈(stops.map (fun s => s.shares * scale_factor)).sum⌉ :=
        Int.floor_le_ceil _
    _ = ⌈totalStopShares stops * scale_factor⌉ := by rw [h2]

/-- Claim C5: for every stop list and fill with `0 < filled ≤ planned`,
the stop phase (with its outer setup not raising) places exactly the
stops given by `floor(stop.shares * filled/planned)`: every placed
order is a scaled stop with nonzero floor (stops flooring to 0 are
skipped without error), every non-failing stop with nonzero floor is
placed even if other placements fail, and the sum of all scaled sizes
is at most `ceil(total stop shares * filled/planned)` — rounding never
increases the total allocation. -/
theorem C5_scale_stops (t : Trade) (filled : ℚ) (fails : ℕ → Bool)
    (h0 : 0 < filled) (hle : filled ≤ t.shares) :
    execute_sell_stop_orders t filled ⟨false, fails⟩ =
      Except.ok (place_stop_orders_loop (filled / t.shares) fails t.sell_stops 0) ∧
    (∀ p ∈ (place_stop_orders_loop (filled / t.shares) fails t.sell_stops 0).1,
      ∃ s ∈ t.sell_stops,
        p.1 = ⌊s.shares * (filled / t.shares)⌋ ∧ p.2 = s.price ∧ p.1 ≠ 0) ∧
    (∀ (j : ℕ) (hj : j < t.sell_stops.length), fails j = false →
      ⌊(t.sell_stops.get ⟨j, hj⟩).shares * (filled / t.shares)⌋ ≠ 0 →
      (⌊(t.sell_stops.get ⟨j, hj⟩).shares * (filled / t.shares)⌋,
        (t.sell_stops.get ⟨j, hj⟩).price) ∈
        (place_stop_orders_loop (filled / t.shares) fails t.sell_stops 0).1) ∧
    (t.sell_stops.map (fun s => ⌊s.shares * (filled / t.shares)⌋)).sum ≤
      ⌈totalStopShares t.sell_stops * (filled / t.shares)⌉ := by
  refine ⟨?_, fun p hp => place_loop_mem_inv _ fails t.sell_stops 0 p hp,
    fun j hj hf hnz => place_loop_mem_of_ok _ fails t.sell_stops 0 j hj
      (by simpa using hf) hnz,
    scaled_sum_le_ceil t.sell_stops (filled / t.shares)⟩
  unfold execute_sell_stop_orders
  rw [if_neg (ne_of_gt h0)]
  rfl

/-- The spec §8 end-to-end scenario trade for the C5 witness. -/
def tradeC5 : Trade :=
  ⟨"AAPL", 10, 500, 145, 155, [⟨150, 5⟩, ⟨145, 3⟩, ⟨140, 2⟩]⟩

/-- Witness for C5 at the spec scenario (6 of 10 shares filled, no
placement failures): the hypotheses hold and the conclusions follow by
applying the claim theorem. -/
theorem C5_witness :
    (0 : ℚ) < 6 ∧ (6 : ℚ) ≤ tradeC5.shares ∧
    (execute_sell_stop_orders tradeC5 6 ⟨false, fun _ => false⟩ =
      Except.ok (place_stop_orders_loop (6 / tradeC5.shares) (fun _ => false)
        tradeC5.sell_stops 0) ∧
    (∀ p ∈ (place_stop_orders_loop (6 / tradeC5.shares) (fun _ => false)
        tradeC5.sell_stops 0).1,
      ∃ s ∈ tradeC5.sell_stops,
        p.1 = ⌊s.shares * (6 / tradeC5.shares)⌋ ∧ p.2 = s.price ∧ p.1 ≠ 0) ∧
    (∀ (j : ℕ) (hj : j < tradeC5.sell_stops.length), (fun _ => false) j = false →
      ⌊(tradeC5.sell_stops.get ⟨j, hj⟩).shares * (6 / tradeC5.shares)⌋ ≠ 0 →
      (⌊(tradeC5.sell_stops.get ⟨j, hj⟩).shares * (6 / tradeC5.shares)⌋,
        (tradeC5.sell_stops.get ⟨j, hj⟩).price) ∈
        (place_stop_orders_loop (6 / tradeC5.shares) (fun _ => false)
          tradeC5.sell_stops 0).1) ∧
    (tradeC5.sell_stops.map (fun s => ⌊s.shares * (6 / tradeC5.shares)⌋)).sum ≤
      ⌈totalStopShares tradeC5.sell_stops * (6 / tradeC5.shares)⌉) := by
  refine ⟨by norm_num, by norm_num [tradeC5], ?_⟩
  exact C5_scale_stops tradeC5 6 (fun _ => false) (by norm_num)
    (by norm_num [tradeC5])

/-! ## Trade Queue insertion tooling (`trades_modifier.py`)

`TradesModifier` works on the same JSON shape; its raw-dict type and
parse checks (missing fields, non-numeric strings) are absorbed by the
typed embedding, while all value checks are kept. -/

/-- Python's `str.strip()`: leading and trailing whitespace removed. -/
def pyStrip (s : String) : String :=
  String.mk (((s.data.dropWhile Char.isWhitespace).reverse.dropWhile
    Char.isWhitespace).reverse)

/-- `TradesModifier._validate_trade`, value checks in source order:
nonempty normalized ticker, positive shares and risk, ordered price
range, nonempty stop list with positive per-stop price and shares, and
the stop-shares sum matching the planned shares within `0.001`. -/
def tm_validate_trade (trade : Trade) : Bool :=
  if pyUpper (pyStrip trade.ticker) == "" then false
  else if trade.shares ≤ 0 then false
  else if trade.risk_amount ≤ 0 then false
  else if trade.lower_price_range ≥ trade.higher_price_range then false
  else if trade.sell_stops.isEmpty then false
  else if trade.sell_stops.any
      (fun stop => decide (stop.price ≤ 0) || decide (stop.shares ≤ 0)) then false
  else if |totalStopShares trade.sell_stops - trade.shares| > 0.001 then false
  else true

/-- `TradesModifier._normalize_trade`: the ticker is stripped and
upcased; the numeric fields and the stop list are (float conversions
aside) unchanged. -/
def tm_normalize_trade (trade : Trade) : Trade :=
  { trade with ticker := pyUpper (pyStrip trade.ticker) }

/-- The duplicate test of `TradesModifier.add_trade`: exact ticker
equality (both sides normalized) and price-range equality within
`0.001`. -/
def tm_duplicate (existing normalized : Trade) : Bool :=
  existing.ticker == normalized.ticker &&
  decide (|existing.lower_price_range - normalized.lower_price_range| < 0.001) &&
  decide (|existing.higher_price_range - normalized.higher_price_range| < 0.001)

/-- `TradesModifier.add_trade`: validate, normalize, reject duplicates
on the (ticker, lower, higher) triple, append. -/
def add_trade (trades : List Trade) (trade : Trade) : List Trade × Bool :=
  if tm_validate_trade trade = false then (trades, false)
  else
    let normalized_trade := tm_normalize_trade trade
    if trades.any (fun existing => tm_duplicate existing normalized_trade) then
      (trades, false)
    else
      (trades ++ [normalized_trade], true)

/-- `TradesModifier.remove_trade`: pop the first trade matching the
same criteria as the executor's lookup. -/
def remove_trade (trades : List Trade) (ticker : String)
    (lower_price higher_price : ℚ) : List Trade × Bool :=
  match find_trade_by_criteria ticker lower_price higher_price trades with
  | some (i, _) => (trades.eraseIdx i, true)
  | none => (trades, false)

/-- `TradesModifier.clear_all_trades`: truncate to the empty queue. -/
def clear_all_trades (_ : List Trade) : List Trade := []

/-- Queue contents reachable from the initialized empty file through
the mutating operations of the system: `TradesModifier.add_trade`,
`TradesModifier.remove_trade`, `TradesModifier.clear_all_trades`, and
the executor's `_remove_processed_trade`. -/
inductive QueueReachable : List Trade → Prop
  | init : QueueReachable []
  | add (q : List Trade) (t : Trade) (hq : QueueReachable q) :
      QueueReachable (add_trade q t).1
  | remove (q : List Trade) (ticker : String) (lo hi : ℚ)
      (hq : QueueReachable q) :
      QueueReachable (remove_trade q ticker lo hi).1
  | clear (q : List Trade) (hq : QueueReachable q) :
      QueueReachable (clear_all_trades q)
  | exec_remove (q : List Trade) (i : ℕ) (q2 : List Trade) (t : Trade)
      (hq : QueueReachable q)
      (hrem : remove_processed_trade q i = Except.ok (q2, t)) :
      QueueReachable q2

/-- A trade passing the insertion validation satisfies the stop-sum
invariant. -/
theorem tm_validate_sum (t : Trade) (h : tm_validate_trade t = true) :
    |totalStopShares t.sell_stops - t.shares| ≤ 0.001 := by
  unfold tm_validate_trade at h
  repeat' split at h
  all_goals simp_all [not_lt]

/-- A trade passing the execution-time validation satisfies the
stop-sum invariant. -/
theorem sb_validate_sum (t : Trade) (risk : ℚ)
    (h : sb_validate_trade t risk = true) :
    |totalStopShares t.sell_stops - t.shares| ≤ 0.001 := by
  unfold sb_validate_trade at h
  repeat' split at h
  all_goals simp_all [not_lt]

/-- Claim C8: every trade reachable in the queue satisfies
`|sum of its sell-stop shares - trade.shares| ≤ 0.001`; the check is
enforced at queue insertion (`tm_validate_trade`, preserved by every
queue mutation) and again by the execution-time validation
(`sb_validate_trade`). -/
theorem C8_stop_sum_invariant :
    (∀ q, QueueReachable q →
      ∀ t ∈ q, |totalStopShares t.sell_stops - t.shares| ≤ 0.001) ∧
    (∀ (t : Trade) (risk : ℚ), sb_validate_trade t risk = true →
      |totalStopShares t.sell_stops - t.shares| ≤ 0.001) := by
  refine ⟨?_, fun t risk h => sb_validate_sum t risk h⟩
  intro q hq
  induction hq with
  | init => simp
  | add q t hq ih =>
    intro u hu
    unfold add_trade at hu
    split at hu
    · exact ih u hu
    · rename_i hval
      simp only at hu
      split at hu
      · exact ih u hu
      · rcases List.mem_append.mp hu with hu | hu
        · exact ih u hu
        · have hu' : u = tm_normalize_trade t := by simpa using hu
          subst hu'
          have hvt : tm_validate_trade t = true := by
            revert hval; cases tm_validate_trade t <;> simp
          have hsum := tm_validate_sum t hvt
          simpa [tm_normalize_trade] using hsum
  | remove q ticker lo hi hq ih =>
    intro u hu
    unfold remove_trade at hu
    split at hu
    · exact ih u ((List.eraseIdx_sublist q _).subset hu)
    · exact ih u hu
  | clear q hq ih =>
    intro u hu
    simp [clear_all_trades] at hu
  | exec_remove q i q2 t hq hrem ih =>
    intro u hu
    unfold remove_processed_trade at hrem
    split at hrem
    · simp only [Except.ok.injEq, Prod.mk.injEq] at hrem
      obtain ⟨hq2, _⟩ := hrem
      rw [← hq2] at hu
      exact ih u ((List.eraseIdx_sublist q i).subset hu)
    · simp at hrem

/-- Concrete valid trade for the C8 witness. -/
def twC8 : Trade :=
  ⟨"AAPL", 10, 500, 145, 155, [⟨150, 5⟩, ⟨145, 3⟩, ⟨140, 2⟩]⟩

/-- Witness for C8: a queue reached by one successful insertion
contains the normalized trade, whose stop sum matches its shares; the
same trade also passes execution-time validation, which implies the
invariant. -/
theorem C8_witness :
    tm_normalize_trade twC8 ∈ (add_trade [] twC8).1 ∧
    sb_validate_trade twC8 1000 = true ∧
    |totalStopShares (tm_normalize_trade twC8).sell_stops -
      (tm_normalize_trade twC8).shares| ≤ 0.001 ∧
    |totalStopShares twC8.sell_stops - twC8.shares| ≤ 0.001 := by
  have hstrip : pyUpper (pyStrip "AAPL") = "AAPL" := by decide
  have hne : (("AAPL" : String) == "") = false := by decide
  have hmem : tm_normalize_trade twC8 ∈ (add_trade [] twC8).1 := by
    norm_num [add_trade, tm_validate_trade, tm_normalize_trade, tm_duplicate,
      totalStopShares, twC8, hstrip, hne]
  have hval : sb_validate_trade twC8 1000 = true := by
    norm_num [sb_validate_trade, totalStopShares, twC8]
  exact ⟨hmem, hval,
    C8_stop_sum_invariant.1 (add_trade [] twC8).1
      (QueueReachable.add [] twC8 QueueReachable.init)
      (tm_normalize_trade twC8) hmem,
    C8_stop_sum_invariant.2 twC8 1000 hval⟩
